import Mathlib

/-!
Verification development for the `isobit/cli` repository (Go).

The definitions below are a shallow embedding of the canonical snapshot of
the repository: the GNU-ish argument parser (`parse.go`, `parser.parse` /
`parser.parseOne` / `parser.parseOneFlag`), the field value layer
(`unnamed/part_010`: `fieldValue.Set`, `pointerSetter.Set`,
`appendSliceSetter.Set`, `CLI.getFields`, `CLI.getArgsField`), the basic
setters (`unnamed/part_008`: `stringSetter`, `scanfSetter`), and the command
resolution level (`context_test.go` second section: `Command.ParseArgs`,
`Command.parseEnvVars`, `Command.checkRequired`,
`ParseResult.writeHelpIfUsageOrHelpError`).

Go mutable state (the `*fieldValue` slots shared between the parser's
field map and `cmd.fields`) is modelled by threading a `List Field` store,
with name lookup resolving to an index into that list, so that a mutation
performed through a flag name is visible when the field list is traversed
again by the environment pass and the required-field check.
-/

namespace Cli

/-- Slot values. Deep embedding of the Go value slots that the claims use:
a `bool` field, a `string` field, and a `[]string` accumulation target. -/
inductive SlotV where
  | vBool (b : Bool)
  | vStr (s : String)
  | vStrList (l : List String)
  deriving DecidableEq, Repr

/-- After an accepted 't'/'T', `scanBool` optionally accepts "rue"
(per-character, case-insensitively): if the next character is 'r'/'R' the
full "rue" must follow, otherwise the scan stops successfully.
Models the 't' arm of go's fmt scanBool. -/
def scanBoolTrueTail : List Char → Option Bool
  | [] => some true
  | r :: rest =>
    if r = 'r' ∨ r = 'R' then
      match rest with
      | [] => none
      | u :: rest2 =>
        if u = 'u' ∨ u = 'U' then
          match rest2 with
          | [] => none
          | e :: _ => if e = 'e' ∨ e = 'E' then some true else none
        else none
    else some true

/-- After an accepted 'f'/'F', `scanBool` optionally accepts "alse"
(per-character, case-insensitively). Models the 'f' arm of go's fmt
scanBool. -/
def scanBoolFalseTail : List Char → Option Bool
  | [] => some false
  | a :: rest =>
    if a = 'a' ∨ a = 'A' then
      match rest with
      | [] => none
      | l :: rest2 =>
        if l = 'l' ∨ l = 'L' then
          match rest2 with
          | [] => none
          | s :: rest3 =>
            if s = 's' ∨ s = 'S' then
              match rest3 with
              | [] => none
              | e :: _ => if e = 'e' ∨ e = 'E' then some false else none
            else none
        else none
    else some false

/-- Models `scanfSetter.Set` on a `*bool` slot (`unnamed/part_008`), i.e.
`fmt.Sscanf(s, "%v", v)` scanning a boolean (go fmt scanBool): leading
blanks are skipped; an empty remainder is an EOF failure; a leading '0' or
'1' decides immediately; 't'/'T' optionally followed by "rue" scans true
and 'f'/'F' optionally followed by "alse" scans false, where a started but
incomplete spelling such as "tr" or "fals" is the boolError failure; any
other leading rune is consumed and scans false with no error — fmt's
scanBool switch has no default error case, unlike strconv.ParseBool.
Characters after the scanned prefix are left unconsumed by Sscanf and
ignored. (Sscanf's special treatment of newlines is not modelled; no
bound value in this development contains one.) -/
def scanBool (s : String) : Option Bool :=
  match s.data.dropWhile (fun c => c == ' ' || c == '\t') with
  | [] => none
  | '0' :: _ => some false
  | '1' :: _ => some true
  | c :: rest =>
    if c = 't' ∨ c = 'T' then scanBoolTrueTail rest
    else if c = 'f' ∨ c = 'F' then scanBoolFalseTail rest
    else some false

/-- The setter obtained for a field by `tryGetSetter` / `getFieldValue`,
restricted to the slot shapes modelled here:
`stringSetter` for a `string` field, `scanfSetter` for a `bool` field, and
`appendSliceSetter` wrapping `stringSetter` for an `append`-tagged
`[]string` field (`unnamed/part_008` and `unnamed/part_010`). -/
inductive SetterK where
  | stringSetter
  | boolScanf
  | appendString
  deriving DecidableEq, Repr

/-- Applies an inner setter to a slot: `stringSetter.Set` assigns the raw
string verbatim; `scanfSetter.Set` on a bool scans via `scanBool`;
`appendSliceSetter.Set` (with a string element placeholder) appends the
raw string to the target slice. Failure is `none`. -/
def SetterK.apply : SetterK → String → SlotV → Option SlotV
  | .stringSetter, s, _ => some (.vStr s)
  | .boolScanf, s, _ => (scanBool s).map SlotV.vBool
  | .appendString, s, slot =>
    match slot with
    | .vStrList l => some (.vStrList (l ++ [s]))
    | _ => none

/-- The `fieldValue` struct of `unnamed/part_010`: the resolved setter, the
`isBoolFlag` classification, the `setCount` and the bound slot. (The
stringer is omitted: no claim observes rendering.) -/
structure FieldValue where
  sk : SetterK
  isBoolFlag : Bool
  setCount : Nat
  slot : SlotV
  deriving DecidableEq, Repr

/-- `fieldValue.Set` (`unnamed/part_010` lines 421-430): increments
`setCount`, then invokes the underlying setter; the boolean result reports
whether the underlying setter succeeded. Note the increment happens before
the inner `Set` call, so it is kept even when the inner setter fails. -/
def FieldValue.set (f : FieldValue) (s : String) : FieldValue × Bool :=
  let f1 : FieldValue := { f with setCount := f.setCount + 1 }
  match f.sk.apply s f.slot with
  | some v => ({ f1 with slot := v }, true)
  | none => (f1, false)

/-- The `field` struct of `unnamed/part_010`. -/
structure Field where
  Name : String
  ShortName : String
  Help : String
  Placeholder : String
  Required : Bool
  EnvVarName : String
  HasArg : Bool
  Hidden : Bool
  value : FieldValue
  deriving DecidableEq, Repr

/-- Auxiliary index-tracking scan for `findField`. -/
def findFieldAux (name : String) : Nat → List Field → Option (Nat × Field)
  | _, [] => none
  | i, f :: fs =>
    if f.Name = name ∨ f.ShortName = name then some (i, f)
    else findFieldAux name (i + 1) fs

/-- Lookup in the command's field map (`Command.addField` in
`context_test.go` registers each field under both its `Name` and its
`ShortName`; uniqueness is enforced at build time, so first match is the
map's answer). The index identifies the shared `*fieldValue`. -/
def findField (fs : List Field) (name : String) : Option (Nat × Field) :=
  findFieldAux name 0 fs

/-- Mutates the `i`-th field's `fieldValue` through `fieldValue.Set`,
returning the updated store and the success of the underlying setter. -/
def setFieldAt (fs : List Field) (i : Nat) (s : String) : List Field × Bool :=
  match fs.get? i with
  | none => (fs, false)
  | some f =>
    let r := f.value.set s
    (fs.set i { f with value := r.1 }, r.2)

/-- The parser errors produced by `parser.parseOne` / `parser.parseOneFlag`
(`parse.go`), each carrying the data interpolated into the Go error
message. -/
inductive ParseErr where
  | badSyntax (tok : String)
  | undefinedFlag (name : String)
  | invalidBoolValue (value name : String)
  | invalidBoolFlag (name : String)
  | missingArgument (name : String)
  | invalidValue (value name : String)
  deriving DecidableEq, Repr

/-- `parser.parseOneFlag` (`parse.go` lines 116-149). Arguments mirror the
Go receiver state (`p.fields` as the store, `p.args`) and parameters. A
boolean flag takes an inline value if present and is otherwise set to the
literal "true", never touching `p.args`; a non-boolean flag without an
inline value consumes the next whole token of `p.args` when lookahead is
enabled, and fails with a missing-argument error otherwise. -/
def parseOneFlag (fs : List Field) (args : List String) (name : String)
    (hasValue : Bool) (value : String) (canLookNext : Bool) :
    Except ParseErr (List Field × List String) :=
  match findField fs name with
  | none => .error (.undefinedFlag name)
  | some (i, fld) =>
    if fld.value.isBoolFlag then
      if hasValue then
        match setFieldAt fs i value with
        | (fs2, true) => .ok (fs2, args)
        | (_, false) => .error (.invalidBoolValue value name)
      else
        match setFieldAt fs i "true" with
        | (fs2, true) => .ok (fs2, args)
        | (_, false) => .error (.invalidBoolFlag name)
    else
      match hasValue, canLookNext, args with
      | false, true, v :: rest =>
        match setFieldAt fs i v with
        | (fs2, true) => .ok (fs2, rest)
        | (_, false) => .error (.invalidValue v name)
      | false, _, _ => .error (.missingArgument name)
      | true, _, as =>
        match setFieldAt fs i value with
        | (fs2, true) => .ok (fs2, as)
        | (_, false) => .error (.invalidValue value name)

/-- The loop of `parser.parseOne` that handles each rune of a single-dash
cluster as a separate flag, except for the last one (`parse.go` lines
85-94): `c` is the rune under inspection, the list holds the remaining
runes; the final rune is returned for normal resolution. Lookahead is
disabled (`canLookNext = false`) for every rune resolved here, and `p.args`
is threaded through unchanged exactly as the Go receiver state is. -/
def clusterLoop (fs : List Field) (args : List String) (c : Char) :
    List Char → Except ParseErr (List Field × List String × Char)
  | [] => .ok (fs, args, c)
  | c2 :: rest =>
    match parseOneFlag fs args (String.mk [c]) false "" false with
    | .error e => .error e
    | .ok (fs2, args2) => clusterLoop fs2 args2 c2 rest

/-- The inline-value scan of `parser.parseOne` (`parse.go` lines 100-107):
splits the flag name at the first '=' strictly after the first character,
returning the name part and, when found, the value part. -/
def splitEqAux : List Char → List Char × Option (List Char)
  | [] => ([], none)
  | c :: rest =>
    if c = '=' then ([], some rest)
    else
      match splitEqAux rest with
      | (pre, v) => (c :: pre, v)

/-- Splits a flag name into name, has-value flag and inline value, with an
'=' only recognized from the second character on ("equals cannot be
first"). -/
def splitEq (name : List Char) : List Char × Bool × List Char :=
  match name with
  | [] => ([], false, [])
  | c :: rest =>
    match splitEqAux rest with
    | (pre, some v) => (c :: pre, true, v)
    | (pre, none) => (c :: pre, false, [])

/-- `parser.parseOne` (`parse.go` lines 61-114). Returns the `seen` flag
together with the threaded store and `p.args`. An empty argument list, a
token shorter than two characters or not starting with '-', terminates
scanning with the token left in place; the literal "--" is consumed and
terminates scanning; a single-dash token is a cluster whose non-final runes
are resolved with lookahead disabled; the current token is then consumed,
the name is split at '=', and the (final) flag is resolved with lookahead
enabled. -/
def parseOne (fs : List Field) (args : List String) :
    Except ParseErr (Bool × List Field × List String) :=
  match args with
  | [] => .ok (false, fs, [])
  | s :: rest =>
    match s.data with
    | [] => .ok (false, fs, args)
    | [_] => .ok (false, fs, args)
    | c0 :: c1 :: cs2 =>
      if c0 = '-' then
        if c1 = '-' then
          match cs2 with
          | [] => .ok (false, fs, rest)
          | ch :: _ =>
            if ch = '-' ∨ ch = '=' then .error (.badSyntax s)
            else
              match splitEq cs2 with
              | (nm, hasValue, value) =>
                match parseOneFlag fs rest (String.mk nm) hasValue
                    (String.mk value) true with
                | .error e => .error e
                | .ok (fs2, args2) => .ok (true, fs2, args2)
        else
          if c1 = '=' then .error (.badSyntax s)
          else
            match clusterLoop fs args c1 cs2 with
            | .error e => .error e
            | .ok (fs2, args2, last) =>
              match splitEq [last] with
              | (nm, hasValue, value) =>
                match parseOneFlag fs2 (args2.drop 1) (String.mk nm) hasValue
                    (String.mk value) true with
                | .error e => .error e
                | .ok (fs3, args3) => .ok (true, fs3, args3)
      else .ok (false, fs, args)

/-- Fuel-indexed unfolding of the `parser.parse` loop (`parse.go` lines
46-59): repeat `parseOne` until it reports no flag seen or an error. Each
seen iteration consumes at least the current token, so `args.length + 1`
fuel always suffices (`parseLoopN_fuel_irrelevant` below). -/
def parseLoopN : Nat → List Field → List String →
    Except ParseErr (List Field × List String)
  | 0, fs, args => .ok (fs, args)
  | n + 1, fs, args =>
    match parseOne fs args with
    | .error e => .error e
    | .ok (false, fs2, args2) => .ok (fs2, args2)
    | .ok (true, fs2, args2) => parseLoopN n fs2 args2

/-- `parser.parse`: runs the scan loop to completion; the returned list is
the residual `p.args`. -/
def parseLoop (fs : List Field) (args : List String) :
    Except ParseErr (List Field × List String) :=
  parseLoopN (args.length + 1) fs args

/-- The result of one call to the injected `LookupEnvFunc`
`(key) -> (value, found, error)`: a found value, a reported absence, or a
transport error from the collaborator. -/
inductive LookupRes where
  | found (v : String)
  | absent
  | failure
  deriving DecidableEq, Repr

/-- Errors from `Command.parseEnvVars` (`context_test.go` lines 379-396):
either the lookup collaborator's own error, returned as-is, or the wrapped
"error parsing KEY" setter failure. -/
inductive EnvErr where
  | lookup
  | setFailed (key : String)
  deriving DecidableEq, Repr

/-- `Command.parseEnvVars` (`context_test.go` lines 379-396): walks
`cmd.fields` in order; a field with an empty `env` tag or a positive
`setCount` is skipped without consulting the collaborator; otherwise the
collaborator is queried, a transport error aborts, an absent key leaves the
field alone, and a found value is fed through the field's `fieldValue.Set`
(the same setter invoked for argument values). -/
def parseEnvVars (lk : String → LookupRes) : List Field → Except EnvErr (List Field)
  | [] => .ok []
  | f :: fs =>
    if f.EnvVarName = "" ∨ f.value.setCount > 0 then
      match parseEnvVars lk fs with
      | .error e => .error e
      | .ok fs2 => .ok (f :: fs2)
    else
      match lk f.EnvVarName with
      | .failure => .error .lookup
      | .absent =>
        match parseEnvVars lk fs with
        | .error e => .error e
        | .ok fs2 => .ok (f :: fs2)
      | .found v =>
        match f.value.set v with
        | (fv, true) =>
          match parseEnvVars lk fs with
          | .error e => .error e
          | .ok fs2 => .ok ({ f with value := fv } :: fs2)
        | (_, false) => .error (.setFailed f.EnvVarName)

/-- `Command.checkRequired` (`context_test.go` lines 399-406): returns the
name in the "required flag NAME not set" error for the first field in
`cmd.fields` order that is required with `setCount < 1`, and `none` when
there is no such field. -/
def checkRequired : List Field → Option String
  | [] => none
  | f :: fs =>
    if f.Required ∧ f.value.setCount < 1 then some f.Name
    else checkRequired fs

/-- A pointer-typed bound field whose slot was nil at bind time
(`CLI.getFieldValue`, `unnamed/part_010` lines 261-294 and 337-343): the
freshly allocated placeholder the inner setter writes to, the original
`*T` slot (`none` = nil), the resolved inner setter, and the enclosing
`fieldValue`'s `setCount`. -/
structure PtrFieldValue where
  sk : SetterK
  placeholder : SlotV
  target : Option SlotV
  setCount : Nat
  deriving DecidableEq, Repr

/-- `fieldValue.Set` wrapping `pointerSetter.Set` (`unnamed/part_010` lines
373-383 and 421-430): the count increments, the inner setter runs against
the placeholder, and only on inner success is the target slot pointed at
the (just written) placeholder value. -/
def PtrFieldValue.set (f : PtrFieldValue) (s : String) : PtrFieldValue × Bool :=
  let f1 : PtrFieldValue := { f with setCount := f.setCount + 1 }
  match f.sk.apply s f.placeholder with
  | none => (f1, false)
  | some v => ({ f1 with placeholder := v, target := some v }, true)

/-- Folds a sequence of `Set` invocations over a pointer field, dropping
the per-call success flags (an aborting caller simply stops supplying
strings). -/
def ptrSets (f : PtrFieldValue) : List String → PtrFieldValue
  | [] => f
  | s :: ss => ptrSets (f.set s).1 ss

/-- The `fieldTags` struct of `unnamed/part_010` (lines 164-178), as
produced by `parseFieldTags`; the tag-string grammar itself is outside the
claims, so tags enter the model already parsed. -/
structure FieldTags where
  exclude : Bool := false
  required : Bool := false
  name : String := ""
  short : String := ""
  placeholder : String := ""
  env : String := ""
  help : String := ""
  defaultString : String := ""
  hideDefault : Bool := false
  hidden : Bool := false
  append : Bool := false
  embed : Bool := false
  args : Bool := false
  deriving DecidableEq, Repr

mutual
/-- The static type of a declared config field, restricted to the shapes
the claims exercise: `bool`, `string`, `[]string`, a nested struct, or any
other type (one `tryGetSetter` has no case for). -/
inductive DeclTy where
  | tyBool
  | tyString
  | tyStringSlice
  | tyRecord (fields : List DeclField)
  | tyOther

/-- One declared field of a config struct: its Go identifier, whether
`reflect` reports it settable (exported and addressable), whether it is an
anonymous (embedded) field, its parsed `cli` tags, and its type. -/
inductive DeclField where
  | mk (goName : String) (canSet : Bool) (anonymous : Bool)
      (tags : FieldTags) (ty : DeclTy)
end

def DeclField.goName : DeclField → String
  | .mk n _ _ _ _ => n

def DeclField.canSet : DeclField → Bool
  | .mk _ c _ _ _ => c

def DeclField.anonymous : DeclField → Bool
  | .mk _ _ a _ _ => a

def DeclField.tags : DeclField → FieldTags
  | .mk _ _ _ t _ => t

def DeclField.ty : DeclField → DeclTy
  | .mk _ _ _ _ t => t

/-- Models `xstrings.ToKebabCase` on the ASCII camel-case identifiers used
for field names: an upper-case letter is lowered and, except at the start,
preceded by a hyphen. -/
def toKebabCase (s : String) : String :=
  String.mk (s.data.foldl
    (fun acc c =>
      if c.isUpper then
        if acc.isEmpty then [c.toLower] else acc ++ ['-', c.toLower]
      else acc ++ [c])
    [])

/-- Build-time errors of `CLI.getFields` / `CLI.getArgsField` /
`CLI.getFieldValue` (`unnamed/part_010`), each carrying the Go identifier
of the offending field from the "problem with field" wrapping. -/
inductive BindErr where
  | invalidArgsField (goName : String)
  | unsupportedType (goName : String)
  | appendNotSlice (goName : String)
  | embeddedNotStruct (goName : String)
  deriving DecidableEq, Repr

/-- Zero value of a modelled slot type, used as the placeholder contents of
a freshly bound field (callers may overwrite defaults before binding; no
claim observes them). -/
def DeclTy.zeroSlot : DeclTy → SlotV
  | .tyBool => .vBool false
  | .tyString => .vStr ""
  | .tyStringSlice => .vStrList []
  | _ => .vStr ""

/-- `CLI.getField` together with the setter resolution of
`CLI.getFieldValue` (`unnamed/part_010` lines 102-124 and 261-361),
restricted to the modelled types: the name comes from the `name` tag or
the kebab-cased identifier; an `append` tag requires a slice type and
wraps the element setter in `appendSliceSetter`; `bool` resolves to
`scanfSetter`, `string` to `stringSetter`; a plain `[]string`, a nested
struct or any other type has no setter and fails the bind. -/
def getField (f : DeclField) : Except BindErr Field :=
  let name := if f.tags.name = "" then toKebabCase f.goName else f.tags.name
  let value : Except BindErr FieldValue :=
    if f.tags.append then
      match f.ty with
      | .tyStringSlice =>
        .ok { sk := .appendString, isBoolFlag := false, setCount := 0,
              slot := .vStrList [] }
      | _ => .error (.appendNotSlice f.goName)
    else
      match f.ty with
      | .tyBool =>
        .ok { sk := .boolScanf, isBoolFlag := true, setCount := 0,
              slot := .vBool false }
      | .tyString =>
        .ok { sk := .stringSetter, isBoolFlag := false, setCount := 0,
              slot := .vStr "" }
      | _ => .error (.unsupportedType f.goName)
  match value with
  | .error e => .error e
  | .ok fv =>
    .ok { Name := name, ShortName := f.tags.short, Help := f.tags.help,
          Placeholder := f.tags.placeholder, Required := f.tags.required,
          EnvVarName := f.tags.env, HasArg := !fv.isBoolFlag,
          Hidden := f.tags.hidden, value := fv }

/-- `CLI.getArgsField` (`unnamed/part_010` lines 126-140): the field must
be (addressable and) exactly of type `[]string`; the resulting sink is
identified here by the Go name of the field its setter closure writes to. -/
def getArgsField (f : DeclField) : Except BindErr String :=
  match f.ty with
  | .tyStringSlice => .ok f.goName
  | _ => .error (.invalidArgsField f.goName)

mutual
/-- The loop body of `CLI.getFields` (`unnamed/part_010` lines 53-100)
with the two loop variables (`fields`, `argsField`) made explicit:
unsettable and excluded fields are skipped; an anonymous or `embed`-tagged
field is recursively flattened, and its sink is adopted only when none has
been found yet (`if argsField == nil`); an `args`-tagged field becomes the
sink, unconditionally overwriting any previously found one
(`argsField = &field`); any other field is bound as a terminal field. -/
def getFieldsAux (acc : List Field) (argsAcc : Option String) :
    List DeclField → Except BindErr (List Field × Option String)
  | [] => .ok (acc, argsAcc)
  | f@(.mk goName canSet anonymous tags ty) :: rest =>
    if ¬canSet then getFieldsAux acc argsAcc rest
    else if tags.exclude then getFieldsAux acc argsAcc rest
    else if anonymous ∨ tags.embed then
      match ty with
      | .tyRecord sub =>
        match getFieldsRec sub with
        | .error e => .error e
        | .ok (embFields, embArgs) =>
          getFieldsAux (acc ++ embFields)
            (match argsAcc with
             | none => embArgs
             | some a => some a) rest
      | _ => .error (.embeddedNotStruct goName)
    else if tags.args then
      match getArgsField f with
      | .error e => .error e
      | .ok sink => getFieldsAux acc (some sink) rest
    else
      match getField f with
      | .error e => .error e
      | .ok fld => getFieldsAux (acc ++ [fld]) argsAcc rest

/-- `CLI.getFields` on a (recursively entered) struct value: a fresh pass
with empty accumulators. -/
def getFieldsRec (decls : List DeclField) :
    Except BindErr (List Field × Option String) :=
  getFieldsAux [] none decls
end

/-- `CLI.getFieldsFromConfig` for a well-shaped struct-pointer config:
delegates to `CLI.getFields`. -/
def getFields (decls : List DeclField) :
    Except BindErr (List Field × Option String) :=
  getFieldsRec decls

/-- The per-command data of the `Command` struct (`context_test.go` lines
127-140) that `ParseArgs` reads: the bound field list (with the injected
help field prepended when `Build` injected one), whether the help field was
injected (a config field literally named `help` suppresses injection, and
then `cmd.helpRequested` can never become true), the positional-args sink,
whether the config implements `Beforer` and with which outcome (`none`: no
`Before` method; `some true`: `Before` returns nil; `some false`: `Before`
errors), and whether the config implements `Runner`/`ContextRunner`. -/
structure CmdMeta where
  name : String
  fields : List Field
  helpInjected : Bool
  argsField : Option String
  before : Option Bool
  hasRun : Bool

/-- The command tree: `cmd.commandMap` entries as name-keyed children
(`Command.AddCommand` registers `subCmd` under `subCmd.name`). -/
inductive CmdT where
  | mk (meta : CmdMeta) (children : List (String × CmdT))

def CmdT.meta : CmdT → CmdMeta
  | .mk m _ => m

def CmdT.children : CmdT → List (String × CmdT)
  | .mk _ c => c

/-- Lookup in `cmd.commandMap`: a Go map assignment overwrites, so with
duplicate registrations the most recently added child wins. -/
def lookupChild : List (String × CmdT) → String → Option CmdT
  | [], _ => none
  | (k, c) :: rest, n =>
    match lookupChild rest n with
    | some r => some r
    | none => if k = n then some c else none

/-- `cmd.helpRequested` after the argument pass: the injected help field's
`scanfSetter{&cmd.helpRequested}` writes the command's flag through the
(first, prepended) field named "help"; when the user's config defines
`help` itself nothing writes `cmd.helpRequested` and it stays false. -/
def helpRequestedB (helpInjected : Bool) (fs : List Field) : Bool :=
  helpInjected &&
    match findField fs "help" with
    | some (_, f) =>
      match f.value.slot with
      | .vBool b => b
      | _ => false
    | none => false

/-- Usage errors wrapped in `UsageErrorWrapper` by `Command.ParseArgs`
(`context_test.go`), carrying the data of the wrapped message. -/
inductive UErr where
  | parseFailed (e : ParseErr)
  | unknownCommand (n : String)
  | noArguments
  | envFailed (e : EnvErr)
  | requiredNotSet (n : String)
  | noCommandSpecified
  deriving DecidableEq, Repr

/-- Classified errors a `ParseResult` can carry: a `UsageErrorWrapper`, the
`ErrHelp` sentinel, or an opaque error from the config's `Before` hook. -/
inductive CErr where
  | usage (u : UErr)
  | helpErr
  | beforeErr
  deriving DecidableEq, Repr

/-- One command level's outcome: a terminal `ParseResult` (the command
identified by the descent path of child names taken from the current
command, empty for the current command itself) or the tail call
`subCmd.ParseArgs(p.args[1:])` into the named child. -/
inductive POut where
  | result (cmdPath : List String) (err : Option CErr)
  | delegate (childName : String) (rest : List String)
  deriving DecidableEq, Repr

/-- Observable side steps of one `ParseArgs` level, in execution order:
the environment pass, the required-field check, and the `Before` hook. -/
inductive Eff where
  | envPass
  | requiredCheck
  | beforeCall
  deriving DecidableEq, Repr

/-- The `help` command descent of `Command.ParseArgs` (`context_test.go`
lines 288-299): each remaining residual token must name a child of the
command reached so far; the first token naming no child aborts with an
unknown-command usage error attributed to the command the loop started
from; otherwise the last named descendant is reported with `ErrHelp`. -/
def helpDescend (cur : CmdT) (acc : List String) : List String → POut
  | [] => .result acc (some .helpErr)
  | t :: rest =>
    match lookupChild cur.children t with
    | some sub => helpDescend sub (acc ++ [t]) rest
    | none => .result [] (some (.usage (.unknownCommand t)))

/-- Resolves a chain of child names from a starting command, the way the
help descent does; `some` is the fully resolved descendant. -/
def chainOk : CmdT → List String → Option CmdT
  | cur, [] => some cur
  | cur, t :: rest =>
    match lookupChild cur.children t with
    | some sub => chainOk sub rest
    | none => none

/-- `Command.ParseArgs` after the flag pass and the help checks
(`context_test.go` lines 301-350): the residual disposition (positional
sink, child resolution, or the "command does not take arguments" error),
then the environment pass, the required-field check, the `Before` hook, and
finally delegation to the resolved child or the run-capability check. The
second component records which of the effectful steps ran. -/
def parseArgsRest (lk : String → LookupRes) (cmd : CmdT) (fs2 : List Field)
    (rargs : List String) : POut × List Eff :=
  let disp : Except UErr (Option String) :=
    match rargs with
    | [] => .ok none
    | t :: _ =>
      if (cmd.meta.argsField).isSome then .ok none
      else if cmd.children.length > 0 then
        match lookupChild cmd.children t with
        | some _ => .ok (some t)
        | none => .error (.unknownCommand t)
      else .error .noArguments
  match disp with
  | .error u => (.result [] (some (.usage u)), [])
  | .ok subName =>
    match parseEnvVars lk fs2 with
    | .error e => (.result [] (some (.usage (.envFailed e))), [.envPass])
    | .ok fs3 =>
      match checkRequired fs3 with
      | some n =>
        (.result [] (some (.usage (.requiredNotSet n))), [.envPass, .requiredCheck])
      | none =>
        match cmd.meta.before with
        | some false =>
          (.result [] (some .beforeErr), [.envPass, .requiredCheck, .beforeCall])
        | bef =>
          let effs := [Eff.envPass, Eff.requiredCheck] ++
            (if bef.isSome then [Eff.beforeCall] else [])
          match subName with
          | some t => (.delegate t (rargs.drop 1), effs)
          | none =>
            if ¬cmd.meta.hasRun ∧ cmd.children.length ≠ 0 then
              (.result [] (some (.usage .noCommandSpecified)), effs)
            else (.result [] none, effs)

/-- One level of `Command.ParseArgs` (`context_test.go` lines 268-351):
run the parser over this level's field map, return `ErrHelp` if the
injected help flag was set, take the root-only `help`-command descent when
the command has no parent, no args sink, and the first residual token is
literally "help", and otherwise proceed to residual disposition,
environment merging, required-field validation, `Before`, and delegation. -/
def parseArgsOne (isRoot : Bool) (lk : String → LookupRes) (cmd : CmdT)
    (args : List String) : POut × List Eff :=
  match parseLoop cmd.meta.fields args with
  | .error e => (.result [] (some (.usage (.parseFailed e))), [])
  | .ok (fs2, rargs) =>
    if helpRequestedB cmd.meta.helpInjected fs2 then
      (.result [] (some .helpErr), [])
    else if isRoot ∧ (cmd.meta.argsField) = none ∧ rargs.head? = some "help" then
      (helpDescend cmd [] (rargs.drop 1), [])
    else
      parseArgsRest lk cmd fs2 rargs

/-- The help-printing decision of `ParseResult.writeHelpIfUsageOrHelpError`
(`context_test.go` lines 448-456), with a non-nil command and help writer:
help is written exactly for a `UsageErrorWrapper` or the `ErrHelp`
sentinel. -/
def writeHelpOnErr : Option CErr → Bool
  | none => false
  | some (.usage _) => true
  | some .helpErr => true
  | some .beforeErr => false

/-! Concrete fixtures used to evaluate the model: a freshly bound boolean
field, string field, and environment-backed field, as `CLI.getField`
produces them. -/

/-- A bound boolean flag named `n` with no short name. -/
def fldBool (n : String) : Field :=
  { Name := n, ShortName := "", Help := "", Placeholder := "", Required := false,
    EnvVarName := "", HasArg := false, Hidden := false,
    value := { sk := .boolScanf, isBoolFlag := true, setCount := 0,
               slot := .vBool false } }

/-- A bound string flag named `n` with no short name. -/
def fldStr (n : String) : Field :=
  { Name := n, ShortName := "", Help := "", Placeholder := "", Required := false,
    EnvVarName := "", HasArg := true, Hidden := false,
    value := { sk := .stringSetter, isBoolFlag := false, setCount := 0,
               slot := .vStr "" } }

/-- A bound string flag named `n` with environment key `k` and `setCount`
`c`. -/
def fldEnv (n k : String) (c : Nat) : Field :=
  { Name := n, ShortName := "", Help := "", Placeholder := "", Required := false,
    EnvVarName := k, HasArg := true, Hidden := false,
    value := { sk := .stringSetter, isBoolFlag := false, setCount := c,
               slot := .vStr "" } }

/-- The injected `help` field (`CLI.Build` in `context_test.go` lines
175-192): boolean, short name `h`, its slot backing `cmd.helpRequested`. -/
def fldHelp : Field :=
  { Name := "help", ShortName := "h", Help := "show usage help",
    Placeholder := "", Required := false, EnvVarName := "", HasArg := false,
    Hidden := false,
    value := { sk := .boolScanf, isBoolFlag := true, setCount := 0,
               slot := .vBool false } }

/-- The three-flag table of the short-cluster scenario: boolean `a` and
`b`, value-taking `c`. -/
def fieldsABC : List Field := [fldBool "a", fldBool "b", fldStr "c"]

/-- A boolean field value set once to true. -/
def fvBoolTrue : FieldValue :=
  { sk := .boolScanf, isBoolFlag := true, setCount := 1, slot := .vBool true }

/-- A string field value set once to `s`. -/
def fvStrOnce (s : String) : FieldValue :=
  { sk := .stringSetter, isBoolFlag := false, setCount := 1, slot := .vStr s }

/-- The bound state the short-cluster scenario is expected to reach:
`a = true`, `b = true`, `c = "v"`, each set once. -/
def fieldsABCSet : List Field :=
  [{ fldBool "a" with value := fvBoolTrue },
   { fldBool "b" with value := fvBoolTrue },
   { fldStr "c" with value := fvStrOnce "v" }]

/-- A collaborator that finds "quux" under every key. -/
def lkFound : String → LookupRes := fun _ => .found "quux"

/-- A collaborator whose lookup mechanism always fails. -/
def lkFail : String → LookupRes := fun _ => .failure

/-- A collaborator that reports every key absent. -/
def lkAbsent : String → LookupRes := fun _ => .absent

/-- A required string flag named `n`, never set. -/
def fldReq (n : String) : Field := { fldStr n with Required := true }

/-- A command with two required fields, neither set. -/
def cmdReq : CmdT :=
  .mk { name := "t", fields := [fldHelp, fldReq "alpha", fldReq "beta"],
        helpInjected := true, argsField := none, before := none,
        hasRun := true } []

/-- A nil-slot pointer field over the boolean scanf setter, never set. -/
def ptrBoolNil : PtrFieldValue :=
  { sk := .boolScanf, placeholder := .vBool false, target := none, setCount := 0 }

/-- The same pointer field after one successful set to true. -/
def ptrBoolTrue : PtrFieldValue :=
  { sk := .boolScanf, placeholder := .vBool true, target := some (.vBool true),
    setCount := 1 }

/-- Tags consisting solely of the `args` marker. -/
def argsTags : FieldTags := { args := true }

/-- A settable, non-anonymous `[]string` field tagged `args`. -/
def argsDecl (n : String) : DeclField := .mk n true false argsTags .tyStringSlice

/-- A settable anonymous (embedded) struct field with the given
sub-fields. -/
def embDecl (n : String) (sub : List DeclField) : DeclField :=
  .mk n true true {} (.tyRecord sub)

/-- A command with one environment-backed field. -/
def cmdEnv : CmdT :=
  .mk { name := "test", fields := [fldHelp, fldEnv "foo" "FOO" 0],
        helpInjected := true, argsField := none, before := none,
        hasRun := true } []

/-- A leaf command of the help-descent tree. -/
def cmdLeaf : CmdT :=
  .mk { name := "leaf", fields := [fldHelp], helpInjected := true,
        argsField := none, before := none, hasRun := true } []

/-- A middle command owning the leaf. -/
def cmdSub : CmdT :=
  .mk { name := "sub", fields := [fldHelp], helpInjected := true,
        argsField := none, before := none, hasRun := false }
    [("leaf", cmdLeaf)]

/-- The root command owning the subcommand chain. -/
def cmdRoot : CmdT :=
  .mk { name := "root", fields := [fldHelp], helpInjected := true,
        argsField := none, before := none, hasRun := false }
    [("sub", cmdSub)]

/-- C1. Evaluation of the parser on the three claimed-equivalent spellings
for boolean short flags `a`, `b` and value-taking short flag `c`:
`-abc v` and `-a -b -c v` both succeed with the identical final bound state
(`a = true`, `b = true`, `c = "v"`, all set once, no residual), but
`-abc=v` fails with "flag needs an argument: c" instead of assigning `v`
to `c` — the cluster loop of `parser.parseOne` (`parse.go` lines 85-94)
treats every rune before the last as a separate lookahead-disabled flag,
including the runes of `=v`, so the value-taking `c` is resolved mid-
cluster before the `=` split (`parse.go` lines 100-107) ever runs. The
repository's README documents `-abf=x` and `-f=x` as supported syntax, so
the claim reflects the documented intent and the code diverges from it. -/
theorem short_cluster_forms_eval :
    parseLoop fieldsABC ["-abc", "v"] = .ok (fieldsABCSet, []) ∧
    parseLoop fieldsABC ["-a", "-b", "-c", "v"] = .ok (fieldsABCSet, []) ∧
    parseLoop fieldsABC ["-abc=v"] = .error (.missingArgument "c") :=
  ⟨rfl, rfl, rfl⟩

/-- C3. The literal token `--` in flag-scanning position is consumed,
terminates flag scanning, and every token after it — dashes and all — is
returned verbatim as the residual arguments, with the bound state left
untouched (`parser.parseOne`, `parse.go` lines 70-76). Every flag-scanning
position is the head position of an iteration of the `parser.parse` loop,
which this equation quantifies over. -/
theorem double_dash_terminates_scan (fs : List Field) (rest : List String) :
    parseLoop fs ("--" :: rest) = .ok (fs, rest) :=
  rfl

/-- C7 counterexample. `fieldValue.Set` increments `setCount` before
invoking the underlying setter (`unnamed/part_010` lines 421-430), so an
invocation whose underlying setter fails still counts: scanning "tr" as a
boolean genuinely fails in go fmt (an incomplete "true" spelling raises
boolError), yet the field's `setCount` afterwards is 1, not 0 as the
claim requires. -/
theorem set_count_failed_set_counterexample :
    (FieldValue.set
        { sk := .boolScanf, isBoolFlag := true, setCount := 0,
          slot := .vBool false } "tr").2 = false ∧
    (FieldValue.set
        { sk := .boolScanf, isBoolFlag := true, setCount := 0,
          slot := .vBool false } "tr").1.setCount = 1 :=
  ⟨rfl, rfl⟩

/-- C7 amended. `setCount` counts every invocation of `fieldValue.Set`
during the parse, successful or not: each call increments it by exactly
one before the underlying setter runs, so a failing invocation also
counts (on the success path this coincides with the claimed count of
successful sets, and a failing set aborts the whole parse anyway). -/
theorem set_count_counts_every_invocation (f : FieldValue) (s : String) :
    (f.set s).1.setCount = f.setCount + 1 := by
  unfold FieldValue.set
  cases f.sk.apply s f.slot <;> rfl

/-- Failed sets leave a nil-slot pointer field's target nil, whatever the
starting count. -/
theorem ptrSets_target_none (sk : SetterK) (z : SlotV) (ss : List String) :
    ∀ n : Nat, (∀ t ∈ ss, sk.apply t z = none) →
      (ptrSets { sk := sk, placeholder := z, target := none, setCount := n }
        ss).target = none := by
  induction ss with
  | nil => intro n _; rfl
  | cons t ts ih =>
    intro n h
    have ht : sk.apply t z = none := h t (by simp)
    have hrest : ∀ u ∈ ts, sk.apply u z = none := fun u hu => h u (by simp [hu])
    simp only [ptrSets, PtrFieldValue.set, ht]
    exact ih (n + 1) hrest

/-- C6. A pointer-typed bound field whose slot was nil at bind time stays
nil across any sequence of failed `Set` invocations, and after one
successful `Set` the slot points at a value equal to what a non-pointer
field backed by the same setter and placeholder would have held
(`pointerSetter.Set` and `fieldValue.Set`, `unnamed/part_010` lines
373-383 and 421-430). -/
theorem nil_pointer_slot_semantics (sk : SetterK) (z : SlotV)
    (ss : List String) (s : String) (v : SlotV) :
    ((∀ t ∈ ss, sk.apply t z = none) →
      (ptrSets { sk := sk, placeholder := z, target := none, setCount := 0 }
        ss).target = none) ∧
    (sk.apply s z = some v →
      PtrFieldValue.set
          { sk := sk, placeholder := z, target := none, setCount := 0 } s =
        ({ sk := sk, placeholder := v, target := some v, setCount := 1 }, true) ∧
      ∀ f : FieldValue, f.sk = sk → f.slot = z →
        (f.set s).1.slot = v ∧ (f.set s).2 = true) := by
  constructor
  · exact ptrSets_target_none sk z ss 0
  · intro hv
    constructor
    · simp [PtrFieldValue.set, hv]
    · intro f hsk hslot
      constructor <;> simp [FieldValue.set, hsk, hslot, hv]

/-- C2. Once `parser.parseOneFlag` has resolved `f` to a bound field with
lookahead enabled and no inline value (exactly the situation of a long
flag, or of the final character of a short cluster): a non-boolean field
consumes the immediately following argv token as the value handed to the
field's setter — for every token `v`, whatever its shape — and fails with
a missing-argument error naming `f` exactly when no following token
exists; a boolean field is set to the literal "true" and never consumes a
following token (`parse.go` lines 116-149). -/
theorem value_lookahead_consumption (fs : List Field) (f : String) (i : Nat)
    (fld : Field) (h : findField fs f = some (i, fld)) :
    (fld.value.isBoolFlag = false →
      (∀ (v : String) (rest : List String),
        parseOneFlag fs (v :: rest) f false "" true =
          if (setFieldAt fs i v).2 then Except.ok ((setFieldAt fs i v).1, rest)
          else Except.error (.invalidValue v f)) ∧
      parseOneFlag fs [] f false "" true = .error (.missingArgument f)) ∧
    (fld.value.isBoolFlag = true →
      ∀ args : List String,
        parseOneFlag fs args f false "" true =
          if (setFieldAt fs i "true").2 then
            Except.ok ((setFieldAt fs i "true").1, args)
          else Except.error (.invalidBoolFlag f)) := by
  constructor
  · intro hb
    constructor
    · intro v rest
      rcases hsv : setFieldAt fs i v with ⟨fs2, ok⟩
      cases ok <;> simp [parseOneFlag, h, hb, hsv]
    · simp [parseOneFlag, h, hb]
  · intro hb args
    rcases hsv : setFieldAt fs i "true" with ⟨fs2, ok⟩
    cases ok <;> simp [parseOneFlag, h, hb, hsv]

/-- C2 witness: over the `a`/`b`/`c` table, `c` consumes the dashed token
"-x" as its value, `c` without a following token yields the
missing-argument error, and boolean `a` leaves the following token "v" in
place. -/
theorem value_lookahead_consumption_witness :
    parseOneFlag fieldsABC ["-x"] "c" false "" true =
      .ok ([fldBool "a", fldBool "b", { fldStr "c" with value := fvStrOnce "-x" }],
        []) ∧
    parseOneFlag fieldsABC [] "c" false "" true = .error (.missingArgument "c") ∧
    parseOneFlag fieldsABC ["v"] "a" false "" true =
      .ok ([{ fldBool "a" with value := fvBoolTrue }, fldBool "b", fldStr "c"],
        ["v"]) := by
  have hc := value_lookahead_consumption fieldsABC "c" 2 (fldStr "c") rfl
  have ha := value_lookahead_consumption fieldsABC "a" 0 (fldBool "a") rfl
  exact ⟨((hc.1 rfl).1 "-x" []).trans rfl, (hc.1 rfl).2,
    ((ha.2 rfl) ["v"]).trans rfl⟩

/-- C4. Per-field behaviour of the environment pass
(`Command.parseEnvVars`, `context_test.go` lines 379-396), stated for the
head of the field list — every field of `cmd.fields` is the head of one
recursive step, and the step depends only on that field and the lookup
collaborator. A field with an empty environment key or a positive
`setCount` is skipped entirely (the equation holds for every collaborator,
so the collaborator is not consulted); otherwise the configured key is
looked up, and a found value is fed through the field's `fieldValue.Set` —
the same setter argument values go through, and the very `setFieldAt` the
parser uses — so coercion applies identically and `setCount` increments;
an absent key leaves the field alone and a transport failure aborts. -/
theorem env_pass_per_field (lk : String → LookupRes) (f : Field)
    (fs : List Field) (v : String) :
    ((f.EnvVarName = "" ∨ f.value.setCount > 0) →
      parseEnvVars lk (f :: fs) = (parseEnvVars lk fs).map (fun l => f :: l)) ∧
    (f.EnvVarName ≠ "" → f.value.setCount = 0 →
      (lk f.EnvVarName = .found v → (f.value.set v).2 = true →
        parseEnvVars lk (f :: fs) =
          (parseEnvVars lk fs).map
            (fun l => { f with value := (f.value.set v).1 } :: l) ∧
        (f.value.set v).1.setCount = f.value.setCount + 1) ∧
      (lk f.EnvVarName = .found v → (f.value.set v).2 = false →
        parseEnvVars lk (f :: fs) = .error (.setFailed f.EnvVarName)) ∧
      (lk f.EnvVarName = .absent →
        parseEnvVars lk (f :: fs) = (parseEnvVars lk fs).map (fun l => f :: l)) ∧
      (lk f.EnvVarName = .failure →
        parseEnvVars lk (f :: fs) = .error .lookup)) := by
  constructor
  · intro hskip
    cases hr : parseEnvVars lk fs <;>
      simp [parseEnvVars, hskip, hr, Except.map]
  · intro hk hc
    have hcond : ¬(f.EnvVarName = "" ∨ f.value.setCount > 0) := by
      simp [hk, hc]
    refine ⟨fun hlk hset => ⟨?_, ?_⟩, fun hlk hset => ?_, fun hlk => ?_,
      fun hlk => ?_⟩
    · rcases hsv : f.value.set v with ⟨fv, ok⟩
      rw [hsv] at hset; subst hset
      cases hr : parseEnvVars lk fs <;>
        simp [parseEnvVars, hcond, hlk, hsv, hr, Except.map]
    · unfold FieldValue.set
      cases f.value.sk.apply v f.value.slot <;> rfl
    · rcases hsv : f.value.set v with ⟨fv, ok⟩
      rw [hsv] at hset; subst hset
      simp [parseEnvVars, hcond, hlk, hsv]
    · cases hr : parseEnvVars lk fs <;>
        simp [parseEnvVars, hcond, hlk, hr, Except.map]
    · simp [parseEnvVars, hcond, hlk]

/-- C4 witness: a field already set once is skipped even though the
collaborator would find a value; an unset field with a key receives the
found value through its setter with the count moving to one; a transport
failure aborts the pass. -/
theorem env_pass_per_field_witness :
    parseEnvVars lkFound [fldEnv "x" "K" 1] = .ok [fldEnv "x" "K" 1] ∧
    parseEnvVars lkFound [fldEnv "y" "K" 0] =
      .ok [{ fldEnv "y" "K" 0 with value := fvStrOnce "quux" }] ∧
    parseEnvVars lkFail [fldEnv "y" "K" 0] = .error .lookup := by
  have h1 := (env_pass_per_field lkFound (fldEnv "x" "K" 1) [] "quux").1
  have h2 := (env_pass_per_field lkFound (fldEnv "y" "K" 0) [] "quux").2
  have h3 := (env_pass_per_field lkFail (fldEnv "y" "K" 0) [] "quux").2
  refine ⟨(h1 (Or.inr (by decide))).trans rfl, ?_, ?_⟩
  · exact (((h2 (by decide) rfl).1 rfl rfl).1).trans rfl
  · exact (h3 (by decide) rfl).2.2.2 rfl

/-- C5. The required-field check fails on exactly the first field in
`cmd.fields` order that is required and never set, reporting only that
field's name (`Command.checkRequired` equals a first-match search), and a
parse whose argument and environment passes succeed surfaces that name in
a required-flag usage error (`Command.ParseArgs` in `context_test.go`). -/
theorem required_first_missing :
    (∀ fs : List Field,
      checkRequired fs =
        (fs.find? (fun fld => fld.Required && fld.value.setCount == 0)).map
          Field.Name) ∧
    (∀ (isRoot : Bool) (lk : String → LookupRes) (cmd : CmdT)
      (fs3 : List Field) (n : String),
      helpRequestedB cmd.meta.helpInjected cmd.meta.fields = false →
      parseEnvVars lk cmd.meta.fields = .ok fs3 →
      checkRequired fs3 = some n →
      parseArgsOne isRoot lk cmd [] =
        (.result [] (some (.usage (.requiredNotSet n))),
         [.envPass, .requiredCheck])) := by
  constructor
  · intro fs
    induction fs with
    | nil => rfl
    | cons f fs ih =>
      by_cases hp : f.Required ∧ f.value.setCount < 1
      · obtain ⟨hr, hc⟩ := hp
        have hc0 : f.value.setCount = 0 := Nat.lt_one_iff.mp hc
        simp [checkRequired, hr, hc, List.find?_cons_of_pos, hc0]
      · have hpf : (f.Required && f.value.setCount == 0) = false := by
          by_cases hr : f.Required
          · have hc : ¬f.value.setCount < 1 := fun hlt => hp ⟨hr, hlt⟩
            have : f.value.setCount ≠ 0 := by omega
            simp [hr, this]
          · simp [hr]
        rw [checkRequired, if_neg hp, List.find?_cons_of_neg _ (by simp [hpf]),
          ih]
  · intro isRoot lk cmd fs3 n h2 h3 h4
    show parseArgsOne isRoot lk cmd [] = _
    unfold parseArgsOne
    have hloop : parseLoop cmd.meta.fields [] = .ok (cmd.meta.fields, []) := rfl
    rw [hloop]
    simp [h2, parseArgsRest, h3, h4]

/-- C5 witness: with `alpha` and `beta` both required and unset, the parse
reports only `alpha`, the first in declaration order. -/
theorem required_first_missing_witness :
    parseArgsOne false lkAbsent cmdReq [] =
      (.result [] (some (.usage (.requiredNotSet "alpha"))),
       [.envPass, .requiredCheck]) :=
  required_first_missing.2 false lkAbsent cmdReq
    [fldHelp, fldReq "alpha", fldReq "beta"] "alpha" rfl rfl rfl

/-- C6 witness: with the boolean scanf setter over a false placeholder,
the genuinely failing input "tr" (an incomplete "true" spelling, fmt's
boolError) leaves the target nil, and the successful input "true" makes
the target point at `true` with the count at one. -/
theorem nil_pointer_slot_semantics_witness :
    (ptrSets ptrBoolNil ["tr"]).target = none ∧
    PtrFieldValue.set ptrBoolNil "true" = (ptrBoolTrue, true) :=
  ⟨(nil_pointer_slot_semantics .boolScanf (.vBool false) ["tr"] "true"
      (.vBool true)).1 (by decide),
   ((nil_pointer_slot_semantics .boolScanf (.vBool false) ["tr"] "true"
      (.vBool true)).2 (by decide)).1⟩

/-- `parseOneFlag` never grows `p.args`: at most one token is consumed by
the lookahead. -/
theorem parseOneFlag_len (fs : List Field) (args : List String)
    (name : String) (hv : Bool) (v : String) (cl : Bool)
    (fs2 : List Field) (args2 : List String)
    (h : parseOneFlag fs args name hv v cl = .ok (fs2, args2)) :
    args2.length ≤ args.length := by
  unfold parseOneFlag at h
  split at h
  · exact absurd h (by simp)
  · split at h
    · split at h
      · split at h
        · injection h with h1
          injection h1 with ha hb
          subst hb
          exact Nat.le_refl _
        · exact absurd h (by simp)
      · split at h
        · injection h with h1
          injection h1 with ha hb
          subst hb
          exact Nat.le_refl _
        · exact absurd h (by simp)
    · split at h
      · split at h
        · injection h with h1
          injection h1 with ha hb
          subst hb
          simp only [List.length_cons]
          exact Nat.le_succ _
        · exact absurd h (by simp)
      · exact absurd h (by simp)
      · split at h
        · injection h with h1
          injection h1 with ha hb
          subst hb
          exact Nat.le_refl _
        · exact absurd h (by simp)

/-- With lookahead disabled, `parseOneFlag` leaves `p.args` untouched. -/
theorem parseOneFlag_noLook (fs : List Field) (args : List String)
    (name : String) (hv : Bool) (v : String)
    (fs2 : List Field) (args2 : List String)
    (h : parseOneFlag fs args name hv v false = .ok (fs2, args2)) :
    args2 = args := by
  unfold parseOneFlag at h
  split at h
  all_goals try split at h
  all_goals try split at h
  all_goals try split at h
  all_goals
    first
    | (simp at h; done)
    | (injection h with h1; injection h1 with ha hb; exact hb.symm)
    | simp_all

/-- The cluster loop, which resolves every rune with lookahead disabled,
leaves `p.args` untouched. -/
theorem clusterLoop_args (l : List Char) :
    ∀ (fs : List Field) (args : List String) (c : Char) (fs2 : List Field)
      (args2 : List String) (ch : Char),
      clusterLoop fs args c l = .ok (fs2, args2, ch) → args2 = args := by
  induction l with
  | nil =>
    intro fs args c fs2 args2 ch h
    injection h with h1
    injection h1 with _ h2
    injection h2 with h3 _
    exact h3.symm
  | cons c2 rest ih =>
    intro fs args c fs2 args2 ch h
    unfold clusterLoop at h
    split at h
    · exact absurd h (by simp)
    · rename_i fsx argsx heq
      have hx := parseOneFlag_noLook fs args (String.mk [c]) false "" fsx
        argsx heq
      exact (ih fsx argsx c2 fs2 args2 ch h).trans hx

/-- A `seen` iteration of the parse loop strictly shrinks `p.args`: at
least the current token is consumed. -/
theorem parseOne_true_lt (fs : List Field) (args : List String)
    (fs2 : List Field) (args2 : List String)
    (h : parseOne fs args = .ok (true, fs2, args2)) :
    args2.length < args.length := by
  unfold parseOne at h
  split at h
  · exact absurd h (by simp)
  · split at h
    · exact absurd h (by simp)
    · exact absurd h (by simp)
    · split at h
      · split at h
        · split at h
          · exact absurd h (by simp)
          · split at h
            · exact absurd h (by simp)
            · split at h
              split at h
              · exact absurd h (by simp)
              · rename_i hcond nm hvv vv heqsp fsx argsx heqp
                injection h with h1
                injection h1 with hseen h2
                injection h2 with hfs hargs
                subst hargs
                have hle := parseOneFlag_len _ _ _ _ _ _ _ _ heqp
                simp only [List.length_cons]
                omega
        · split at h
          · exact absurd h (by simp)
          · split at h
            · exact absurd h (by simp)
            · rename_i fsy argsy ch heqc
              split at h
              split at h
              · exact absurd h (by simp)
              · rename_i nm hvv vv heqsp fsx argsx heqp
                injection h with h1
                injection h1 with hseen h2
                injection h2 with hfs hargs
                subst hargs
                have hcl := clusterLoop_args _ _ _ _ _ _ _ heqc
                subst hcl
                have hle := parseOneFlag_len _ _ _ _ _ _ _ _ heqp
                simp only [List.drop_succ_cons, List.drop_zero,
                  List.length_cons] at hle ⊢
                omega
      · exact absurd h (by simp)

/-- Any fuel strictly above the argument count runs the parse loop to its
genuine fixpoint: `parseLoopN` is fuel-irrelevant from `args.length + 1`
on, so `parseLoop` computes exactly the unbounded Go loop. -/
theorem parseLoopN_fuel_irrelevant (n : Nat) :
    ∀ (m : Nat) (fs : List Field) (args : List String),
      args.length < n → args.length < m →
      parseLoopN n fs args = parseLoopN m fs args := by
  induction n with
  | zero => intro m fs args hn; omega
  | succ n ih =>
    intro m fs args hn hm
    rcases m with _ | m
    · omega
    · show parseLoopN (n + 1) fs args = parseLoopN (m + 1) fs args
      unfold parseLoopN
      rcases hp : parseOne fs args with e | ⟨seen, fs2, args2⟩
      · rfl
      · cases seen
        · rfl
        · have hlt := parseOne_true_lt fs args fs2 args2 hp
          exact ih m fs2 args2 (by omega) (by omega)

/-- Chains of resolvable child names make the help descent succeed with
the full path and `ErrHelp`. -/
theorem helpDescend_resolves (ts : List String) :
    ∀ (cur : CmdT) (acc : List String) (final : CmdT),
      chainOk cur ts = some final →
      helpDescend cur acc ts = .result (acc ++ ts) (some .helpErr) := by
  induction ts with
  | nil => intro cur acc final _; simp [helpDescend]
  | cons t rest ih =>
    intro cur acc final h
    rcases hl : lookupChild cur.children t with _ | sub
    · rw [chainOk, hl] at h
      exact absurd h (by simp)
    · simp only [chainOk, hl] at h
      simp only [helpDescend, hl]
      rw [ih sub (acc ++ [t]) final h]
      simp

/-- The help descent aborts with an unknown-command usage error at the
first token that names no child of the command reached so far. -/
theorem helpDescend_unknown (pre : List String) :
    ∀ (cur : CmdT) (acc : List String) (t : String) (post : List String)
      (mid : CmdT),
      chainOk cur pre = some mid → lookupChild mid.children t = none →
      helpDescend cur acc (pre ++ t :: post) =
        .result [] (some (.usage (.unknownCommand t))) := by
  induction pre with
  | nil =>
    intro cur acc t post mid hchain hnone
    injection hchain with hcur
    subst hcur
    simp [helpDescend, hnone]
  | cons u rest ih =>
    intro cur acc t post mid hchain hnone
    rcases hl : lookupChild cur.children u with _ | sub
    · rw [chainOk, hl] at hchain
      exact absurd hchain (by simp)
    · simp only [chainOk, hl] at hchain
      show helpDescend cur acc (u :: (rest ++ t :: post)) = _
      simp only [helpDescend, hl]
      exact ih sub (acc ++ [u]) t post mid hchain hnone

/-- C8 counterexample. Two settable `[]string` fields both tagged `args`
in one config do not fail the build with a duplicate-args-field error:
`CLI.getFields` (`unnamed/part_010` lines 85-90) unconditionally
overwrites the previously found sink, so the build succeeds with the
second field as the sink. -/
theorem duplicate_args_field_counterexample :
    getFields [argsDecl "A", argsDecl "B"] = .ok ([], some "B") := by
  simp [getFields, getFieldsRec, getFieldsAux, getArgsField, argsDecl,
    argsTags, DeclField.canSet, DeclField.anonymous, DeclField.tags,
    DeclField.ty, DeclField.goName]

/-- C8 amended. More than one `args`-tagged field is not a build error:
at one nesting level the later `args`-tagged field silently overwrites the
earlier one as the sink, and a sink found inside an embedded record is
adopted only when no sink has been found yet; the type requirement stands:
a settable, non-embedded field tagged `args` whose type is not `[]string`
fails the build with an invalid-args-field error (`CLI.getArgsField`,
`unnamed/part_010` lines 126-140). -/
theorem args_field_last_wins (n1 n2 e : String) (d : DeclField)
    (hcs : d.canSet = true) (han : d.anonymous = false)
    (hem : d.tags.embed = false) (hex : d.tags.exclude = false)
    (hargs : d.tags.args = true) (hty : d.ty ≠ .tyStringSlice) :
    getFields [argsDecl n1, argsDecl n2] = .ok ([], some n2) ∧
    getFields [argsDecl n1, embDecl e [argsDecl n2]] = .ok ([], some n1) ∧
    getFields [d] = .error (.invalidArgsField d.goName) := by
  refine ⟨?_, ?_, ?_⟩
  · simp [getFields, getFieldsRec, getFieldsAux, getArgsField, argsDecl,
      argsTags, DeclField.canSet, DeclField.anonymous, DeclField.tags,
      DeclField.ty, DeclField.goName]
  · simp [getFields, getFieldsRec, getFieldsAux, getArgsField, argsDecl,
      embDecl, argsTags, DeclField.canSet, DeclField.anonymous,
      DeclField.tags, DeclField.ty, DeclField.goName]
  · rcases d with ⟨g, cs, an, tg, ty⟩
    simp only [DeclField.canSet] at hcs
    simp only [DeclField.anonymous] at han
    simp only [DeclField.tags] at hem hex hargs
    simp only [DeclField.ty] at hty
    subst hcs; subst han
    cases ty <;>
      simp_all [getFields, getFieldsRec, getFieldsAux, getArgsField,
        DeclField.canSet, DeclField.anonymous, DeclField.tags, DeclField.ty,
        DeclField.goName]

/-- C8 witness: the amended behaviour at concrete configs — sibling
overwrite, embedded non-adoption, and the invalid-type error. -/
theorem args_field_last_wins_witness :
    getFields [argsDecl "X", argsDecl "Y"] = .ok ([], some "Y") ∧
    getFields [argsDecl "X", embDecl "E" [argsDecl "Y"]] = .ok ([], some "X") ∧
    getFields [DeclField.mk "W" true false argsTags .tyBool] =
      .error (.invalidArgsField "W") := by
  have h := args_field_last_wins "X" "Y" "E"
    (DeclField.mk "W" true false argsTags .tyBool) rfl rfl rfl rfl rfl
    (by intro hcon; cases hcon)
  exact ⟨h.1, h.2.1, h.2.2⟩

/-- C9 counterexample. A transport error from the environment-lookup
collaborator is wrapped by `Command.ParseArgs` in a `UsageErrorWrapper`
("failed to parse environment variables: ...", `context_test.go` lines
322-325), so — contrary to the claim — it is classified as a usage error
and `ParseResult.writeHelpIfUsageOrHelpError` does write help text for
it. -/
theorem env_lookup_error_counterexample :
    (parseArgsOne false lkFail cmdEnv []).1 =
      .result [] (some (.usage (.envFailed .lookup))) ∧
    writeHelpOnErr (some (.usage (.envFailed .lookup))) = true :=
  ⟨rfl, rfl⟩

/-- C9 amended. If the environment-lookup collaborator errors, the parse
aborts with that error wrapped as a usage error, and — exactly like parser
and validation errors — the wrapped error does trigger automatic help
text. -/
theorem env_lookup_error_is_usage (isRoot : Bool) (lk : String → LookupRes)
    (cmd : CmdT) (e : EnvErr)
    (hh : helpRequestedB cmd.meta.helpInjected cmd.meta.fields = false)
    (henv : parseEnvVars lk cmd.meta.fields = .error e) :
    parseArgsOne isRoot lk cmd [] =
      (.result [] (some (.usage (.envFailed e))), [.envPass]) ∧
    writeHelpOnErr (some (.usage (.envFailed e))) = true := by
  constructor
  · unfold parseArgsOne
    have hloop : parseLoop cmd.meta.fields [] = .ok (cmd.meta.fields, []) := rfl
    rw [hloop]
    simp [hh, parseArgsRest, henv]
  · rfl

/-- C9 amended witness: the concrete one-field command under the failing
collaborator aborts with the usage-wrapped lookup error after only the
environment pass ran. -/
theorem env_lookup_error_is_usage_witness :
    parseArgsOne false lkFail cmdEnv [] =
      (.result [] (some (.usage (.envFailed .lookup))), [.envPass]) ∧
    writeHelpOnErr (some (.usage (.envFailed .lookup))) = true :=
  env_lookup_error_is_usage false lkFail cmdEnv .lookup rfl rfl

/-- C10. When a root command (no parent) without a positional-args sink
parses arguments whose first residual token is the literal "help" (and the
help flag itself was not set), `Command.ParseArgs` hands the remaining
residual tokens to the internal help descent and performs none of the
effectful steps — no environment merging, no required-field check, no
`Before`, and no delegation into any descendant's `ParseArgs` (the outcome
is terminal, not a delegation, and the effect trace is empty; the lookup
collaborator is universally quantified and absent from the result). The
descent interprets each remaining token as a subcommand name: if the whole
chain resolves, the result is `ErrHelp` attributed to the last named
descendant, and otherwise it is an unknown-command usage error at the
first token naming no child (`context_test.go` lines 287-299). -/
theorem help_command_descent (lk : String → LookupRes) (cmd : CmdT)
    (args : List String) (fs2 : List Field) (rest : List String)
    (hp : parseLoop cmd.meta.fields args = .ok (fs2, "help" :: rest))
    (hh : helpRequestedB cmd.meta.helpInjected fs2 = false)
    (ha : cmd.meta.argsField = none) :
    parseArgsOne true lk cmd args = (helpDescend cmd [] rest, []) ∧
    (∀ final : CmdT, chainOk cmd rest = some final →
      helpDescend cmd [] rest = .result rest (some .helpErr)) ∧
    (∀ (pre : List String) (t : String) (post : List String) (mid : CmdT),
      rest = pre ++ t :: post → chainOk cmd pre = some mid →
      lookupChild mid.children t = none →
      helpDescend cmd [] rest =
        .result [] (some (.usage (.unknownCommand t)))) := by
  refine ⟨?_, ?_, ?_⟩
  · unfold parseArgsOne
    rw [hp]
    simp [hh, ha]
  · intro final h
    simpa using helpDescend_resolves rest cmd [] final h
  · intro pre t post mid hre h1 h2
    rw [hre]
    exact helpDescend_unknown pre cmd [] t post mid h1 h2

/-- C10 witness: on the concrete two-level tree, `help sub leaf` yields
the help-requested result for the leaf command named by the full chain,
with an empty effect trace. -/
theorem help_command_descent_witness :
    parseArgsOne true lkAbsent cmdRoot ["help", "sub", "leaf"] =
      (.result ["sub", "leaf"] (some .helpErr), []) := by
  have h := help_command_descent lkAbsent cmdRoot ["help", "sub", "leaf"]
    cmdRoot.meta.fields ["sub", "leaf"] rfl rfl rfl
  rw [h.1, h.2.1 cmdLeaf rfl]

end Cli
